import Mathlib

set_option linter.unusedVariables false

/-!
Shallow embedding of the Case-Tracker front-end (src/static/js/api.js,
src/static/js/ui.js, and the main application module) in Lean 4.

Network effects are made explicit: every API wrapper takes the transport-level
`response.ok` flag and the decoded JSON body as arguments and returns
`Except String _`, where `Except.error msg` models `throw new Error(msg)`.
JavaScript truthiness on strings and numbers (`x || d`, `x ? a : b`) is
modelled by explicit helper functions.
-/

namespace CaseTracker

/-- JavaScript `s || dflt` for an optional string: `undefined`, `null` and the
empty string are falsy. -/
def jsOr (s : Option String) (dflt : String) : String :=
  match s with
  | some e => if e = "" then dflt else e
  | none => dflt

/-- JavaScript truthiness of an optional string: present and non-empty. -/
def jsTruthy (s : Option String) : Bool :=
  match s with
  | some e => e ≠ ""
  | none => false

/-- JavaScript `s.toLowerCase()`: lower-case every character. -/
def jsToLower (s : String) : String :=
  String.mk (s.toList.map Char.toLower)

/-- JavaScript `n || dflt` for an optional number: `undefined`, `null` and `0`
are falsy. -/
def jsOrInt (n : Option Int) (dflt : Int) : Int :=
  match n with
  | some v => if v = 0 then dflt else v
  | none => dflt

/-- A case record as consumed by the UI (all fields the JS reads; absent or
`null` JSON fields are `none`). -/
structure CaseRec where
  id : Nat
  case_name : Option String := none
  victim_name : Option String := none
  suspect_name : Option String := none
  docket_url : Option String := none
  status : Option String := none
  last_hearing_date : Option String := none
  next_hearing_date : Option String := none
  confidence : Option String := none
  notes : Option String := none
  processing_status : Option String := none
  deriving DecidableEq, Repr

/-- A decoded JSON response body under the success envelope: `success`,
optional `error` message, and a payload `data` whose shape varies per
operation. `success` is the truthiness of `result.success`. -/
structure ApiResult (α : Type) where
  success : Bool
  error : Option String
  data : α
  deriving DecidableEq, Repr

/-- A decoded progress snapshot body from `/progress/{id}`. It has no success
envelope, but a body may still carry error-shaped fields, which the client
passes through untouched. -/
structure Progress where
  percent : Option Int := none
  message : Option String := none
  status : Option String := none
  success : Option Bool := none
  error : Option String := none
  deriving DecidableEq, Repr

/-! ## API client (src/static/js/api.js)

Each wrapper mirrors its JS function: `if (!response.ok || !result.success)
throw new Error(result.error || '<default>')`, else resolve. Request-side
arguments (ids, payloads) are kept even where only the URL uses them. -/

/-- `getCases(status)`: resolves with `result.data`. -/
def getCases (statusFilter : Option String) (ok : Bool) (result : ApiResult α) :
    Except String α :=
  if !ok || !result.success then
    Except.error (jsOr result.error "Failed to fetch cases")
  else
    Except.ok result.data

/-- `getCaseById(caseId)`: resolves with `result.data`. -/
def getCaseById (caseId : Nat) (ok : Bool) (result : ApiResult α) :
    Except String α :=
  if !ok || !result.success then
    Except.error (jsOr result.error "Case not found")
  else
    Except.ok result.data

/-- `apiAddCase(caseData)`: resolves with `result.data`. -/
def apiAddCase (caseData : CaseRec) (ok : Bool) (result : ApiResult α) :
    Except String α :=
  if !ok || !result.success then
    Except.error (jsOr result.error "Failed to add case")
  else
    Except.ok result.data

/-- `updateCase(caseId, updateData)`: resolves with `result.data`. -/
def updateCase (caseId : Nat) (updateData : CaseRec) (ok : Bool)
    (result : ApiResult α) : Except String α :=
  if !ok || !result.success then
    Except.error (jsOr result.error "Failed to update case")
  else
    Except.ok result.data

/-- `apiDeleteCase(caseId)`: resolves with the literal `true`, not the deleted
entity; the body's `data` field is ignored. -/
def apiDeleteCase (caseId : Nat) (ok : Bool) (result : ApiResult α) :
    Except String Bool :=
  if !ok || !result.success then
    Except.error (jsOr result.error "Failed to delete case")
  else
    Except.ok true

/-- `triggerResearch(caseId)`: resolves with the whole decoded body. -/
def triggerResearch (caseId : Nat) (ok : Bool) (result : ApiResult α) :
    Except String (ApiResult α) :=
  if !ok || !result.success then
    Except.error (jsOr result.error "Research failed")
  else
    Except.ok result

/-- `triggerAllResearch()`: resolves with the whole decoded body. -/
def triggerAllResearch (ok : Bool) (result : ApiResult α) :
    Except String (ApiResult α) :=
  if !ok || !result.success then
    Except.error (jsOr result.error "Batch research failed")
  else
    Except.ok result

/-- `getSchedulerStatus()`: resolves with the whole decoded body. -/
def getSchedulerStatus (ok : Bool) (result : ApiResult α) :
    Except String (ApiResult α) :=
  if !ok || !result.success then
    Except.error (jsOr result.error "Failed to get scheduler status")
  else
    Except.ok result

/-- `scheduleCustomCheck(caseIds, runTime)`: resolves with the whole decoded
body. -/
def scheduleCustomCheck (caseIds : List Nat) (runTime : String) (ok : Bool)
    (result : ApiResult α) : Except String (ApiResult α) :=
  if !ok || !result.success then
    Except.error (jsOr result.error "Scheduling failed")
  else
    Except.ok result

/-- `getCaseProgress(caseId)`: returns the decoded body unconditionally; it
never consults `response.ok` and never inspects the body. -/
def getCaseProgress (caseId : Nat) (ok : Bool) (result : Progress) :
    Except String Progress :=
  Except.ok result

/-- The uniform success contract of the API client: a call resolves exactly
when the transport status is OK and the decoded body declares success, and
otherwise throws `result.error || dflt` (JS truthiness). -/
def enforcesEnvelope {α β : Type} (call : Bool → ApiResult α → Except String β)
    (dflt : String) : Prop :=
  ∀ (ok : Bool) (body : ApiResult α),
    ((∃ v, call ok body = Except.ok v) ↔ (ok = true ∧ body.success = true)) ∧
    (¬(ok = true ∧ body.success = true) →
      call ok body = Except.error (jsOr body.error dflt))

/-! ## HTML escaping (src/static/js/ui.js, `escapeHtml`)

The JS performs five sequential global regex replaces, each on a single
character. A global single-character replace rewrites every occurrence of that
character independently, which is exactly a per-character expansion of the
string; `replaceCharL` models one such pass on the character list. -/

/-- One global single-character replace pass: every occurrence of `c` becomes
`r`, every other character is kept. -/
def replaceCharL (l : List Char) (c : Char) (r : List Char) : List Char :=
  l.flatMap (fun ch => if ch = c then r else [ch])

/-- `escapeHtml`: `null`/`undefined` yield `""`; otherwise the five replace
passes of the source in order: `&`, `<`, `>`, `"` (`Char.ofNat 34`), single
quote (`Char.ofNat 39`). -/
def escapeHtml (u : Option String) : String :=
  match u with
  | none => ""
  | some s =>
    String.mk
      (replaceCharL
        (replaceCharL
          (replaceCharL
            (replaceCharL
              (replaceCharL s.toList '&' "&amp;".toList)
              '<' "&lt;".toList)
            '>' "&gt;".toList)
          (Char.ofNat 34) "&quot;".toList)
        (Char.ofNat 39) "&#039;".toList)

/-! ## Row rendering (src/static/js/ui.js, `createCaseRow`) -/

/-- The constant HTML the next-hearing-date cell receives for a closed case. -/
def caseClosedHtml : String :=
  "<span style=\"color: var(--text-muted); font-style: italic; font-size: 13px;\">Case Closed</span>"

/-- The low-confidence warning marker appended for active cases. -/
def lowConfidenceMarker : String :=
  " <span style=\"cursor:help\" title=\"AI Confidence: LOW. Please verify manually.\">⚠️</span>"

/-- The next-hearing-date cell content computed by `createCaseRow`:
`status = (c.status || 'Open').toLowerCase()`; closed or verdict-reached cases
get the fixed "Case Closed" text; otherwise the date (with `''` and
`'Unknown'` treated as absent) or "Unknown", plus the warning marker when
`(c.confidence || 'high').toLowerCase() === 'low'`. -/
def nextDateHtml (c : CaseRec) : String :=
  let status := jsToLower (jsOr c.status "Open")
  let isClosed := status = "closed" ∨ status = "verdict reached"
  if isClosed then
    caseClosedHtml
  else
    let rawNext : Option String :=
      match c.next_hearing_date with
      | some d => if d ≠ "" ∧ d ≠ "Unknown" then some d else none
      | none => none
    let base :=
      match rawNext with
      | some d => "<span class=\"date-future\">" ++ d ++ "</span>"
      | none => "<span style=\"color: var(--text-muted)\">Unknown</span>"
    if jsToLower (jsOr c.confidence "high") = "low" then
      base ++ lowConfidenceMarker
    else
      base

/-! ## Render-time poll resumption (src/static/js/ui.js, `renderCases` and
`resumeProgressWrapper`)

`renderCases` first appends a row `row-${c.id}` for every case, then walks the
list again and calls `resumeProgressWrapper(c.id)` exactly for the cases whose
`processing_status === 'processing'`. The wrapper looks the row up by id and
starts polling only when the row (appended just before) is found. -/

/-- The case ids for which `renderCases cases` starts the progress poller. -/
def renderCasesPollers (cases : List CaseRec) : List Nat :=
  let rowIds := cases.map (fun c => c.id)
  (cases.filter (fun c => c.processing_status = some "processing")).filterMap
    (fun c => if c.id ∈ rowIds then some c.id else none)

/-! ## Progress poller (src/static/js/ui.js, `startProgressPolling`)

One `setInterval` tick, with the fetch outcome made explicit. The view holds
the two target DOM elements (`progress-${id}-bar` width and
`progress-${id}-text` content), `none` when the element no longer exists. -/

/-- The poller's visual target elements for one case id. -/
structure PollView where
  bar : Option Int
  text : Option String
  deriving DecidableEq, Repr

/-- Observable outcome of one poll tick: whether `clearInterval` ran, the view
afterwards, how many full list refreshes were scheduled, whether any
user-visible error was shown, and what was logged to the console. -/
structure TickResult where
  cleared : Bool
  view : PollView
  refreshes : Nat
  errorShown : Bool
  logged : List String
  deriving DecidableEq, Repr

/-- One tick of `startProgressPolling`'s interval callback. A thrown fetch is
caught and logged only. With a decoded snapshot: if both elements exist, the
bar and text are updated in place, then `percent >= 100 ||
progress.status === 'complete'` clears the timer, overwrites the text with
"Done!" and schedules one `syncWithServer`; if an element is missing, the
timer is cleared silently. -/
def pollTick (view : PollView) (fetchResult : Except String Progress) :
    TickResult :=
  match fetchResult with
  | Except.error e =>
    { cleared := false, view := view, refreshes := 0, errorShown := false,
      logged := ["Progress poll error " ++ e] }
  | Except.ok progress =>
    match view.bar, view.text with
    | some _, some _ =>
      let percent := jsOrInt progress.percent 0
      let newText :=
        if jsTruthy progress.message then
          s!"({percent}%) " ++ jsOr progress.message ""
        else
          s!"{percent}%"
      if percent ≥ 100 ∨ progress.status = some "complete" then
        { cleared := true, view := { bar := some percent, text := some "Done!" },
          refreshes := 1, errorShown := false, logged := [] }
      else
        { cleared := false, view := { bar := some percent, text := some newText },
          refreshes := 0, errorShown := false, logged := [] }
    | _, _ =>
      { cleared := true, view := view, refreshes := 0, errorShown := false,
        logged := [] }

/-- Cumulative outcome of a run of poll ticks. -/
structure RunResult where
  view : PollView
  refreshes : Nat
  stopped : Bool
  deriving DecidableEq, Repr

/-- Run the poller over a sequence of tick outcomes, stopping as soon as a
tick clears the interval (later ticks never fire). -/
def pollRun (view : PollView) (ticks : List (Except String Progress)) :
    RunResult :=
  match ticks with
  | [] => { view := view, refreshes := 0, stopped := false }
  | fr :: rest =>
    let r := pollTick view fr
    if r.cleared then
      { view := r.view, refreshes := r.refreshes, stopped := true }
    else
      let rr := pollRun r.view rest
      { view := rr.view, refreshes := r.refreshes + rr.refreshes,
        stopped := rr.stopped }

/-! ## Full-list refresh (main application module, `syncWithServer`)

`syncWithServer` returns immediately when the module-level `isLoading` flag is
set; otherwise it sets the flag, awaits `getCases()`, on success stores the
list and re-renders, on failure shows an inline retry control, and clears the
flag in `finally`. The `await` point is modelled by splitting the function
into the synchronous prefix (`syncBegin`) and the continuation
(`syncFinish`). -/

/-- The application state touched by `syncWithServer`. -/
structure AppState where
  isLoading : Bool
  cases : List CaseRec
  retryShown : Bool
  deriving DecidableEq, Repr

/-- Observable outcome of one `syncWithServer` invocation. -/
structure SyncResult where
  state : AppState
  fetched : Bool
  rendered : Bool
  deriving DecidableEq, Repr

/-- The synchronous prefix of `syncWithServer`: the guard check and the flag
set. Returns the state at the `await` point and whether the body proceeds. -/
def syncBegin (st : AppState) : AppState × Bool :=
  if st.isLoading then (st, false)
  else ({ st with isLoading := true }, true)

/-- The continuation of `syncWithServer` after `getCases()` settles: store and
render on success, show the retry control on failure, clear the flag in
`finally` either way. -/
def syncFinish (st : AppState) (fetchResult : Except String (List CaseRec)) :
    SyncResult :=
  match fetchResult with
  | Except.ok data =>
    { state := { st with cases := data, isLoading := false },
      fetched := true, rendered := true }
  | Except.error _ =>
    { state := { st with retryShown := true, isLoading := false },
      fetched := true, rendered := false }

/-- One whole `syncWithServer` invocation, given the outcome `getCases()`
would produce if reached. -/
def syncWithServer (st : AppState) (fetchResult : Except String (List CaseRec)) :
    SyncResult :=
  let (st1, proceed) := syncBegin st
  if proceed then syncFinish st1 fetchResult
  else { state := st1, fetched := false, rendered := false }

/-! ## General lemmas -/

/-- Any call of the common `if (!ok || !success) throw else resolve` shape
satisfies the uniform success contract. -/
theorem enforcesEnvelope_of {α β : Type} (f : ApiResult α → β) (dflt : String)
    (call : Bool → ApiResult α → Except String β)
    (h : ∀ ok body, call ok body =
      if !ok || !body.success then Except.error (jsOr body.error dflt)
      else Except.ok (f body)) :
    enforcesEnvelope call dflt := by
  intro ok body
  constructor
  · rw [h]
    cases ok <;> cases hs : body.success <;> simp [hs]
  · intro hnot
    rw [h]
    cases ok <;> cases hs : body.success <;> simp_all

/-- Membership in one replace pass comes from the replacement text or from an
untouched character of the input. -/
theorem mem_replaceCharL {d c : Char} {r l : List Char}
    (hd : d ∈ replaceCharL l c r) : d ∈ r ∨ (d ∈ l ∧ d ≠ c) := by
  unfold replaceCharL at hd
  rw [List.mem_flatMap] at hd
  obtain ⟨ch, hch, hmem⟩ := hd
  by_cases h : ch = c
  · rw [if_pos h] at hmem
    exact Or.inl hmem
  · rw [if_neg h] at hmem
    rw [List.mem_singleton] at hmem
    subst hmem
    exact Or.inr ⟨hch, h⟩

/-- A replace pass eliminates its target character whenever the replacement
text does not reintroduce it. -/
theorem replaceCharL_no_target {c : Char} {r : List Char} (hc : c ∉ r)
    (l : List Char) : c ∉ replaceCharL l c r := by
  intro h
  rcases mem_replaceCharL h with h | ⟨_, hne⟩
  · exact hc h
  · exact hne rfl

/-- A replace pass introduces no character that is absent from both the input
and the replacement text. -/
theorem replaceCharL_not_mem {d : Char} (c : Char) (r : List Char)
    (hr : d ∉ r) {l : List Char} (hl : d ∉ l) : d ∉ replaceCharL l c r := by
  intro h
  rcases mem_replaceCharL h with h | ⟨hm, _⟩
  · exact hr h
  · exact hl hm

/-! ## Claim theorems -/

/-- C2 (counterexample): the claim fails as stated. With response body
`{success:false, error:""}` the server-supplied message is the empty string,
yet `getCases` throws its operation-specific default (JS `||` treats `""` as
falsy), so the thrown message does not equal the supplied `"X"`. Moreover
`getCaseProgress` is an API client operation that resolves with a
`{success:false}` body instead of throwing. -/
theorem apiClient_envelope_cex :
    getCases (α := List CaseRec) none true ⟨false, some "", []⟩ =
      Except.error "Failed to fetch cases" ∧
    "Failed to fetch cases" ≠ "" ∧
    getCaseProgress 7 false { success := some false, error := some "X" } =
      Except.ok { success := some false, error := some "X" } :=
  ⟨rfl, by decide, rfl⟩

/-- C2 (amended): every API client operation except `getCaseProgress` resolves
with the decoded payload exactly when the transport status is OK and the body
declares success, and otherwise throws the server-supplied error message when
that message is non-empty, falling back to an operation-specific default. -/
theorem apiClient_envelope (α : Type) :
    (∀ sf : Option String,
      enforcesEnvelope (α := α) (getCases sf) "Failed to fetch cases") ∧
    (∀ id : Nat, enforcesEnvelope (α := α) (getCaseById id) "Case not found") ∧
    (∀ cd : CaseRec,
      enforcesEnvelope (α := α) (apiAddCase cd) "Failed to add case") ∧
    (∀ (id : Nat) (ud : CaseRec),
      enforcesEnvelope (α := α) (updateCase id ud) "Failed to update case") ∧
    (∀ id : Nat,
      enforcesEnvelope (α := α) (apiDeleteCase id) "Failed to delete case") ∧
    (∀ id : Nat,
      enforcesEnvelope (α := α) (triggerResearch id) "Research failed") ∧
    enforcesEnvelope (α := α) triggerAllResearch "Batch research failed" ∧
    enforcesEnvelope (α := α) getSchedulerStatus
      "Failed to get scheduler status" ∧
    (∀ (ids : List Nat) (t : String),
      enforcesEnvelope (α := α) (scheduleCustomCheck ids t) "Scheduling failed") ∧
    (∀ (ok : Bool) (body : ApiResult α) (sf : Option String),
      ok = true → body.success = true → getCases sf ok body = Except.ok body.data) ∧
    (∀ (X : String) (ok : Bool) (body : ApiResult α),
      X ≠ "" → body.success = false → body.error = some X →
        getCases none ok body = Except.error X ∧
        ∀ (ids : List Nat) (t : String),
          scheduleCustomCheck ids t ok body = Except.error X) := by
  refine ⟨fun sf => ?_, fun id => ?_, fun cd => ?_, fun id ud => ?_,
    fun id => ?_, fun id => ?_, ?_, ?_, fun ids t => ?_, ?_, ?_⟩
  · exact enforcesEnvelope_of (fun b => b.data) _ _ (fun ok body => rfl)
  · exact enforcesEnvelope_of (fun b => b.data) _ _ (fun ok body => rfl)
  · exact enforcesEnvelope_of (fun b => b.data) _ _ (fun ok body => rfl)
  · exact enforcesEnvelope_of (fun b => b.data) _ _ (fun ok body => rfl)
  · exact enforcesEnvelope_of (fun _ => true) _ _ (fun ok body => rfl)
  · exact enforcesEnvelope_of (fun b => b) _ _ (fun ok body => rfl)
  · exact enforcesEnvelope_of (fun b => b) _ _ (fun ok body => rfl)
  · exact enforcesEnvelope_of (fun b => b) _ _ (fun ok body => rfl)
  · exact enforcesEnvelope_of (fun b => b) _ _ (fun ok body => rfl)
  · intro ok body sf hok hs
    subst hok
    simp [getCases, hs]
  · intro X ok body hX hs he
    refine ⟨?_, fun ids t => ?_⟩ <;>
      simp [getCases, scheduleCustomCheck, jsOr, hs, he, hX]

/-- C2 (witness for the amended claim): a concrete failing call carries the
non-empty server-supplied message. -/
theorem apiClient_envelope_witness :
    getCases (α := List Nat) none true ⟨false, some "boom", []⟩ =
      Except.error "boom" :=
  ((apiClient_envelope (List Nat)).2.2.2.2.2.2.2.2.2.2 "boom" true
    ⟨false, some "boom", []⟩ (by decide) rfl rfl).1

/-- C3: `getCaseProgress` does not enforce the success envelope: for every
transport status and every decoded body — including bodies carrying
`success:false` or an error field — it resolves with the body unchanged and
never throws. -/
theorem getCaseProgress_no_envelope (caseId : Nat) (ok : Bool)
    (body : Progress) : getCaseProgress caseId ok body = Except.ok body :=
  rfl

/-- C6: whenever the server responds with an OK status and a success body,
`apiDeleteCase` resolves with the boolean `true` — not the deleted entity —
for every case id, in particular for ids absent from the client's in-memory
case list, which the operation never consults. -/
theorem apiDeleteCase_success_bool (inMemory : List CaseRec) (caseId : Nat)
    (ok : Bool) (body : ApiResult (Option CaseRec))
    (hnot : caseId ∉ inMemory.map (fun c => c.id)) (hok : ok = true)
    (hs : body.success = true) :
    apiDeleteCase caseId ok body = Except.ok true := by
  subst hok
  simp [apiDeleteCase, hs]

/-- C6 (witness): deleting id 7 with an empty in-memory list and a successful
server response yields `true`. -/
theorem apiDeleteCase_success_bool_witness :
    apiDeleteCase 7 true ⟨true, none, (none : Option CaseRec)⟩ =
      Except.ok true :=
  apiDeleteCase_success_bool [] 7 true ⟨true, none, none⟩ (by simp) rfl rfl

/-- C1: on any poll tick whose snapshot is fetched while the visual target
elements still exist, a terminal snapshot (`percent >= 100` after the `|| 0`
default, or status tag `"complete"`) clears the interval — so no further tick
of the run fires — overwrites the text with the completion marker "Done!", and
schedules exactly one subsequent full list refresh, whatever ticks would have
followed. -/
theorem pollTick_terminal_refresh (v : PollView) (p : Progress) (w : Int)
    (t : String) (rest : List (Except String Progress))
    (hb : v.bar = some w) (ht : v.text = some t)
    (hterm : jsOrInt p.percent 0 ≥ 100 ∨ p.status = some "complete") :
    pollTick v (Except.ok p) =
      { cleared := true,
        view := { bar := some (jsOrInt p.percent 0), text := some "Done!" },
        refreshes := 1, errorShown := false, logged := [] } ∧
    pollRun v (Except.ok p :: rest) =
      { view := { bar := some (jsOrInt p.percent 0), text := some "Done!" },
        refreshes := 1, stopped := true } := by
  obtain ⟨vb, vt⟩ := v
  simp only at hb ht
  subst hb
  subst ht
  have h1 : pollTick ⟨some w, some t⟩ (Except.ok p) =
      { cleared := true,
        view := { bar := some (jsOrInt p.percent 0), text := some "Done!" },
        refreshes := 1, errorShown := false, logged := [] } := by
    unfold pollTick
    simp only
    rw [if_pos hterm]
  exact ⟨h1, by simp [pollRun, h1]⟩

/-- C1 (witness): a 100% snapshot with live elements stops the run and
triggers exactly one refresh even with a further tick queued. -/
theorem pollTick_terminal_refresh_witness :
    pollRun ⟨some 0, some "Starting..."⟩
      [Except.ok { percent := some 100 }, Except.ok { percent := some 5 }] =
      { view := { bar := some 100, text := some "Done!" },
        refreshes := 1, stopped := true } :=
  (pollTick_terminal_refresh ⟨some 0, some "Starting..."⟩ { percent := some 100 }
    0 "Starting..." [Except.ok { percent := some 5 }] rfl rfl
    (Or.inl (by decide))).2

/-- C4 (counterexample): the claim fails as stated. A case with
`processing_status:"queued"` does not get its poller started by
`renderCases` — the source resumes only on the exact string
`'processing'`. -/
theorem renderCases_queued_cex :
    renderCasesPollers [{ id := 1, processing_status := some "queued" }] = [] ∧
    1 ∉ renderCasesPollers [{ id := 1, processing_status := some "queued" }] :=
  ⟨rfl, by decide⟩

/-- C4 (amended): for every case in a list passed to `renderCases` whose
`processing_status` is exactly `"processing"`, rendering starts the progress
poller for that case id without any user action; and the poller is started
only for such cases. -/
theorem renderCases_resumes_processing (cases : List CaseRec) :
    (∀ c ∈ cases, c.processing_status = some "processing" →
      c.id ∈ renderCasesPollers cases) ∧
    (∀ i ∈ renderCasesPollers cases, ∃ c ∈ cases,
      c.id = i ∧ c.processing_status = some "processing") := by
  unfold renderCasesPollers
  constructor
  · intro c hmem hproc
    refine List.mem_filterMap.mpr ⟨c, List.mem_filter.mpr ⟨hmem, by simp [hproc]⟩, ?_⟩
    have hrow : c.id ∈ cases.map (fun c => c.id) := List.mem_map.mpr ⟨c, hmem, rfl⟩
    simp [hrow]
  · intro i hi
    obtain ⟨c, hcf, hci⟩ := List.mem_filterMap.mp hi
    obtain ⟨hcm, hcp⟩ := List.mem_filter.mp hcf
    refine ⟨c, hcm, ?_, by simpa using hcp⟩
    by_cases h : c.id ∈ cases.map (fun c => c.id)
    · rw [if_pos h] at hci
      exact Option.some.inj hci
    · rw [if_neg h] at hci
      exact absurd hci (by simp)

/-- C4 (witness): a freshly rendered list with one processing case starts its
poller. -/
theorem renderCases_resumes_processing_witness :
    2 ∈ renderCasesPollers [{ id := 2, processing_status := some "processing" }] :=
  (renderCases_resumes_processing
      [{ id := 2, processing_status := some "processing" }]).1
    { id := 2, processing_status := some "processing" } (by simp) rfl

/-- C5: for every case whose `status` field lower-cases to `"closed"`, the
rendered next-hearing-date cell is the fixed "Case Closed" text, regardless of
`next_hearing_date` and of `confidence`, and the low-confidence warning marker
does not appear in it. -/
theorem closedCase_nextDate (c : CaseRec) (s : String)
    (hst : c.status = some s) (hcl : jsToLower s = "closed") :
    nextDateHtml c = caseClosedHtml ∧ '⚠' ∉ (nextDateHtml c).toList := by
  have hne : s ≠ "" := by
    intro h
    rw [h] at hcl
    exact absurd hcl (by decide)
  have h1 : nextDateHtml c = caseClosedHtml := by
    unfold nextDateHtml
    rw [hst]
    simp [jsOr, hne, hcl]
  refine ⟨h1, ?_⟩
  rw [h1]
  decide

/-- C5 (witness): a case with `status:"Closed"`, a concrete future date and
low confidence still renders "Case Closed". -/
theorem closedCase_nextDate_witness :
    nextDateHtml
      { id := 1, status := some "Closed",
        next_hearing_date := some "2024-05-01", confidence := some "low" } =
      caseClosedHtml :=
  (closedCase_nextDate _ "Closed" rfl (by decide)).1

/-- C7: full list refreshes never overlap. An invocation of `syncWithServer`
arriving while the module-level `isLoading` flag is set returns immediately
without fetching or re-rendering and leaves the state untouched; an invocation
that proceeds sets the flag for the duration of the refresh (it is set at the
`await` point) and clears it again whether the fetch succeeds or fails. -/
theorem syncWithServer_reentrancy (st : AppState)
    (fr : Except String (List CaseRec)) :
    (st.isLoading = true →
      syncWithServer st fr =
        { state := st, fetched := false, rendered := false }) ∧
    (st.isLoading = false →
      (syncBegin st).1.isLoading = true ∧ (syncBegin st).2 = true) ∧
    (st.isLoading = false →
      (syncWithServer st fr).state.isLoading = false ∧
      (syncWithServer st fr).fetched = true) := by
  refine ⟨fun hl => ?_, fun hl => ?_, fun hl => ?_⟩
  · simp [syncWithServer, syncBegin, hl]
  · simp [syncBegin, hl]
  · cases fr <;> simp [syncWithServer, syncBegin, syncFinish, hl]

/-- C7 (witness): a call arriving mid-refresh (flag set) is a no-op. -/
theorem syncWithServer_reentrancy_witness :
    syncWithServer ⟨true, [], false⟩ (Except.error "boom") =
      { state := ⟨true, [], false⟩, fetched := false, rendered := false } :=
  (syncWithServer_reentrancy ⟨true, [], false⟩ (Except.error "boom")).1 rfl

/-- C8: on every poll tick whose fetch (or snapshot processing) throws, the
error is only logged: the interval is not cleared, the view is unchanged, no
user-visible error is shown, no refresh is scheduled, and the run continues
exactly as if from the next tick — with no backoff and no attempt limit. -/
theorem pollTick_error_silent (v : PollView) (e : String)
    (rest : List (Except String Progress)) :
    pollTick v (Except.error e) =
      { cleared := false, view := v, refreshes := 0, errorShown := false,
        logged := ["Progress poll error " ++ e] } ∧
    pollRun v (Except.error e :: rest) = pollRun v rest := by
  constructor
  · rfl
  · simp [pollRun, pollTick]

/-- C9: on any poll tick whose snapshot is fetched after the visual target
elements (bar or text) no longer exist, the poller clears its interval and
stops — raising no error, showing nothing, scheduling no list refresh, and
leaving the view untouched for the rest of the run. (Ticks whose fetch itself
throws are governed by the error path, which never clears the timer.) -/
theorem pollTick_elements_lost (v : PollView) (p : Progress)
    (rest : List (Except String Progress))
    (h : v.bar = none ∨ v.text = none) :
    pollTick v (Except.ok p) =
      { cleared := true, view := v, refreshes := 0, errorShown := false,
        logged := [] } ∧
    pollRun v (Except.ok p :: rest) =
      { view := v, refreshes := 0, stopped := true } := by
  obtain ⟨vb, vt⟩ := v
  simp only at h
  have h1 : pollTick ⟨vb, vt⟩ (Except.ok p) =
      { cleared := true, view := ⟨vb, vt⟩, refreshes := 0, errorShown := false,
        logged := [] } := by
    rcases h with h | h <;> subst h
    · cases vt <;> rfl
    · cases vb <;> rfl
  exact ⟨h1, by simp [pollRun, h1]⟩

/-- C9 (witness): after the row is gone, a 100%-complete snapshot silently
stops the run with no refresh. -/
theorem pollTick_elements_lost_witness :
    pollRun ⟨none, none⟩
      [Except.ok { percent := some 100, status := some "complete" }] =
      { view := ⟨none, none⟩, refreshes := 0, stopped := true } :=
  (pollTick_elements_lost ⟨none, none⟩
    { percent := some 100, status := some "complete" } [] (Or.inl rfl)).2

/-- C10: `escapeHtml` is total on its public inputs: `null`/`undefined` give
`""`, and for every string input the output contains no `<`, no `>`, no
double quote (`Char.ofNat 34`) and no single quote (`Char.ofNat 39`); each
of those characters, and every `&`, is rewritten to its HTML entity. -/
theorem escapeHtml_sanitizes :
    escapeHtml none = "" ∧
    (∀ (s : String) (d : Char), d ∈ (escapeHtml (some s)).toList →
      d ≠ '<' ∧ d ≠ '>' ∧ d ≠ Char.ofNat 34 ∧ d ≠ Char.ofNat 39) ∧
    escapeHtml (some "&") = "&amp;" ∧
    escapeHtml (some "<") = "&lt;" ∧
    escapeHtml (some ">") = "&gt;" ∧
    escapeHtml (some (String.mk [Char.ofNat 34])) = "&quot;" ∧
    escapeHtml (some (String.mk [Char.ofNat 39])) = "&#039;" := by
  refine ⟨rfl, ?_, by decide, by decide, by decide, by decide, by decide⟩
  intro s d hd
  have hlt : '<' ∉ (escapeHtml (some s)).toList := by
    have h2 : '<' ∉ replaceCharL (replaceCharL s.toList '&' "&amp;".toList)
        '<' "&lt;".toList := replaceCharL_no_target (by decide) _
    have h3 := replaceCharL_not_mem '>' "&gt;".toList (by decide) h2
    have h4 := replaceCharL_not_mem (Char.ofNat 34) "&quot;".toList (by decide) h3
    exact replaceCharL_not_mem (Char.ofNat 39) "&#039;".toList (by decide) h4
  have hgt : '>' ∉ (escapeHtml (some s)).toList := by
    have h3 : '>' ∉ replaceCharL (replaceCharL (replaceCharL s.toList
        '&' "&amp;".toList) '<' "&lt;".toList) '>' "&gt;".toList :=
      replaceCharL_no_target (by decide) _
    have h4 := replaceCharL_not_mem (Char.ofNat 34) "&quot;".toList (by decide) h3
    exact replaceCharL_not_mem (Char.ofNat 39) "&#039;".toList (by decide) h4
  have hq : Char.ofNat 34 ∉ (escapeHtml (some s)).toList := by
    have h4 : Char.ofNat 34 ∉ replaceCharL (replaceCharL (replaceCharL
        (replaceCharL s.toList '&' "&amp;".toList) '<' "&lt;".toList)
        '>' "&gt;".toList) (Char.ofNat 34) "&quot;".toList :=
      replaceCharL_no_target (by decide) _
    exact replaceCharL_not_mem (Char.ofNat 39) "&#039;".toList (by decide) h4
  have ha : Char.ofNat 39 ∉ (escapeHtml (some s)).toList :=
    replaceCharL_no_target (by decide) _
  exact ⟨fun he => hlt (he ▸ hd), fun he => hgt (he ▸ hd),
    fun he => hq (he ▸ hd), fun he => ha (he ▸ hd)⟩

/-- C10 (witness): a character of a concrete escaped output is none of the
four dangerous characters. -/
theorem escapeHtml_sanitizes_witness :
    ('a' ≠ '<' ∧ 'a' ≠ '>' ∧ 'a' ≠ Char.ofNat 34 ∧ 'a' ≠ Char.ofNat 39) :=
  escapeHtml_sanitizes.2.1 "abc" 'a' (by decide)

end CaseTracker
